import Mathlib

/-!
Verification development for the pg-mcp-server transaction lifecycle core.

The TypeScript sources are shallowly embedded as pure Lean functions:

* `TrackedTransaction` and the registry `Map` of `TransactionManager`
  (src/lib/transaction-manager.ts, src/lib/types.ts) become a
  `ManagerState` holding an insertion-ordered association list with
  JavaScript `Map` semantics (`mapGet`, `mapSet`, `mapUpdate`, `mapDelete`).
* Side effects on pooled connections (acquire, `client.query(...)`,
  `client.release()`) are recorded as an explicit `Event` trace; whether a
  given query succeeds or throws is an oracle `QueryEnv` supplied as a
  parameter, so theorems quantify over every possible database behaviour.
* `async`/`await` control flow with `try`/`catch`/`finally` is rendered as
  sequential state passing; caught errors continue on the same path that
  the TypeScript `catch` block takes, uncaught errors become `Except.error`.
-/

namespace PgMcp

/-- State field of a tracked transaction (types.ts): `active` or `terminating`. -/
inductive TxState where
  | active
  | terminating
deriving DecidableEq, Repr

/-- TrackedTransaction entity from src/lib/types.ts.  The pg client handle is
modelled as a `Nat` identifier; `startTime` is the `Date.now()` timestamp in
milliseconds. -/
structure TrackedTransaction where
  id : String
  client : Nat
  startTime : Nat
  sql : String
  state : TxState
  released : Bool
deriving DecidableEq, Repr

/-- The registry map of the transaction manager, with JavaScript `Map`
semantics: insertion-ordered entries with unique keys. -/
abbrev TxMap := List (String × TrackedTransaction)

/-- JavaScript `Map.get`: first entry with the given key, if any. -/
def mapGet (m : TxMap) (id : String) : Option TrackedTransaction :=
  match m with
  | [] => none
  | (k, v) :: rest => if k = id then some v else mapGet rest id

/-- JavaScript `Map.set`: overwrite the entry in place when the key exists,
append otherwise. -/
def mapSet (m : TxMap) (id : String) (v : TrackedTransaction) : TxMap :=
  match m with
  | [] => [(id, v)]
  | (k, w) :: rest => if k = id then (k, v) :: rest else (k, w) :: mapSet rest id v

/-- In-place mutation of the object stored under a key (e.g.
`transaction.state = 'terminating'` on the object returned by `get`). -/
def mapUpdate (m : TxMap) (id : String) (f : TrackedTransaction → TrackedTransaction) : TxMap :=
  match m with
  | [] => []
  | (k, v) :: rest => if k = id then (k, f v) :: rest else (k, v) :: mapUpdate rest id f

/-- JavaScript `Map.delete`: drop the entry with the given key. -/
def mapDelete (m : TxMap) (id : String) : TxMap :=
  match m with
  | [] => []
  | (k, v) :: rest => if k = id then mapDelete rest id else (k, v) :: mapDelete rest id

/-- Observable side effects on pooled connections, recorded as a trace. -/
inductive Event where
  | acquire (client : Nat)
  | query (client : Nat) (sql : String)
  | release (client : Nat)
  | rollbackInitiated (id initiator reason : String)
  | caughtError
deriving DecidableEq, Repr

/-- Oracle deciding whether `client.query(sql)` succeeds (`true`) or
throws (`false`). -/
abbrev QueryEnv := Nat → String → Bool

/-- Errors that propagate out of registry operations. -/
inductive TxError where
  | notFound (id : String)
  | db (client : Nat) (sql : String)
deriving DecidableEq, Repr

/-- Mutable state of `TransactionManager`: the `transactions` map and whether
the timeout-monitor interval timer is currently installed. -/
structure ManagerState where
  transactions : TxMap
  monitorActive : Bool
deriving DecidableEq, Repr

/-- utils.ts `safelyReleaseClient`: release a possibly-null client handle;
any exception thrown by `release()` is caught and logged, so the function is
total and only records the release attempt. -/
def safelyReleaseClient (client : Option Nat) : List Event :=
  match client with
  | some c => [Event.release c]
  | none => []

/-- Character-level test that the first list is a leading segment of the
second, mirroring JavaScript `String.startsWith`. -/
def hasPrefixChars : List Char → List Char → Bool
  | [], _ => true
  | _ :: _, [] => false
  | c :: ps, d :: ls => c = d && hasPrefixChars ps ls

/-- JavaScript `String.trim`: drop whitespace from both ends. -/
def trimChars (l : List Char) : List Char :=
  ((l.dropWhile Char.isWhitespace).reverse.dropWhile Char.isWhitespace).reverse

/-- JavaScript `String.toLowerCase`, character by character. -/
def lowerChars (l : List Char) : List Char := l.map Char.toLower

/-- JavaScript `String.toUpperCase`, character by character. -/
def upperChars (l : List Char) : List Char := l.map Char.toUpper

/-- utils.ts `isReadOnlyQuery`: trim, lower-case, and test the four
read-only keywords.  String operations are modelled on the character list of
the string. -/
def isReadOnlyQuery (sql : String) : Bool :=
  let trimmedSql := lowerChars (trimChars sql.data)
  hasPrefixChars "select".data trimmedSql ||
  hasPrefixChars "with".data trimmedSql ||
  hasPrefixChars "explain".data trimmedSql ||
  hasPrefixChars "show".data trimmedSql

/-- transaction-manager.ts `hasTransaction`. -/
def hasTransaction (st : ManagerState) (id : String) : Bool :=
  (mapGet st.transactions id).isSome

/-- transaction-manager.ts `getTransaction`. -/
def getTransaction (st : ManagerState) (id : String) : Option TrackedTransaction :=
  mapGet st.transactions id

/-- transaction-manager.ts `transactionCount` getter: `this.transactions.size`. -/
def transactionCount (st : ManagerState) : Nat :=
  st.transactions.length

/-- transaction-manager.ts `addTransaction`: `this.transactions.set(id, {id,
client, startTime: Date.now(), sql, state: 'active', released: false})`.
`now` stands for `Date.now()`. -/
def addTransaction (st : ManagerState) (id : String) (client : Nat) (sql : String)
    (now : Nat) : ManagerState :=
  { st with transactions :=
      mapSet st.transactions id ⟨id, client, now, sql, TxState.active, false⟩ }

/-- transaction-manager.ts `removeTransaction`: if the entry exists and is not
yet released, release its client via `safelyReleaseClient` and mark
`released = true`; delete the map entry unconditionally. -/
def removeTransaction (st : ManagerState) (id : String) : ManagerState × List Event :=
  match mapGet st.transactions id with
  | some tx =>
    if tx.released then
      ({ st with transactions := mapDelete st.transactions id }, [])
    else
      ({ st with transactions :=
            mapDelete (mapUpdate st.transactions id (fun t => { t with released := true })) id },
        safelyReleaseClient (some tx.client))
  | none => ({ st with transactions := mapDelete st.transactions id }, [])

/-- transaction-manager.ts `rollbackAndRemove`: missing id returns silently;
otherwise set `state = terminating`, attempt `ROLLBACK` (an error is caught
and logged, recorded here as `Event.caughtError`), and in the `finally` block
call `removeTransaction`.  The function never rejects. -/
def rollbackAndRemove (env : QueryEnv) (st : ManagerState) (id initiator reason : String) :
    Except TxError Unit × ManagerState × List Event :=
  match mapGet st.transactions id with
  | none => (Except.ok (), st, [])
  | some tx =>
    let st1 := { st with transactions := mapUpdate st.transactions id (fun t => { t with state := TxState.terminating }) }
    let ev1 := [Event.rollbackInitiated id initiator reason, Event.query tx.client "ROLLBACK"]
        ++ (if env tx.client "ROLLBACK" then [] else [Event.caughtError])
    let res := removeTransaction st1 id
    (Except.ok (), res.1, ev1 ++ res.2)

/-- transaction-manager.ts `commitAndRemove`: missing id throws; otherwise set
`state = terminating`, issue `COMMIT`, and in the `finally` block call
`removeTransaction`; a commit error is rethrown after the cleanup ran. -/
def commitAndRemove (env : QueryEnv) (st : ManagerState) (id : String) :
    Except TxError Unit × ManagerState × List Event :=
  match mapGet st.transactions id with
  | none => (Except.error (TxError.notFound id), st, [])
  | some tx =>
    let st1 := { st with transactions := mapUpdate st.transactions id (fun t => { t with state := TxState.terminating }) }
    let ev1 := [Event.query tx.client "COMMIT"]
    let res := removeTransaction st1 id
    if env tx.client "COMMIT" then
      (Except.ok (), res.1, ev1 ++ res.2)
    else
      (Except.error (TxError.db tx.client "COMMIT"), res.1, ev1 ++ res.2)

/-- One transaction visited by the `forEach` of `checkTransactionTimeouts`
(transaction-manager.ts): if the entry still exists and `now - startTime >
timeoutMs`, fire `rollbackAndRemove(id, "自动", "事务已超时")` (the code's
initiator/reason strings, Chinese for "automatic"/"transaction timed out"). -/
def tickStep (env : QueryEnv) (now timeoutMs : Nat) (acc : ManagerState × List Event)
    (id : String) : ManagerState × List Event :=
  match mapGet acc.1.transactions id with
  | none => acc
  | some tx =>
    if timeoutMs < now - tx.startTime then
      let res := rollbackAndRemove env acc.1 id "自动" "事务已超时"
      (res.2.1, acc.2 ++ res.2.2)
    else acc

/-- transaction-manager.ts `checkTransactionTimeouts`: iterate over the
registered transactions and roll back every one whose age exceeds the
timeout.  Each fired rollback deletes only its own entry, so iterating the
ids of the map at tick start is faithful to the `forEach` over the live map. -/
def checkTransactionTimeouts (env : QueryEnv) (now timeoutMs : Nat) (st : ManagerState) :
    ManagerState × List Event :=
  (st.transactions.map Prod.fst).foldl (tickStep env now timeoutMs) (st, [])

/-- One id processed by the shutdown sweep of `destroy`; failures of the
rollback are caught (`.catch`) and do not stop the sweep. -/
def destroyStep (env : QueryEnv) (acc : ManagerState × List Event) (id : String) :
    ManagerState × List Event :=
  let res := rollbackAndRemove env acc.1 id "系统关闭" "系统关闭期间正在清理事务"
  (res.2.1, acc.2 ++ res.2.2)

/-- transaction-manager.ts `destroy`: clear the monitor interval, snapshot the
current ids (`Array.from(this.transactions.keys())`), and roll back each with
initiator `"系统关闭"` (Chinese for "system shutdown"). -/
def destroy (env : QueryEnv) (st : ManagerState) : ManagerState × List Event :=
  let st0 := { st with monitorActive := false }
  (st0.transactions.map Prod.fst).foldl (destroyStep env) (st0, [])

/-- tool-handlers.ts `getOperationType`: trim, upper-case, and match the
leading keyword. -/
def getOperationType (sql : String) : String :=
  let normalizedSql := upperChars (trimChars sql.data)
  if hasPrefixChars "INSERT".data normalizedSql then "INSERT"
  else if hasPrefixChars "UPDATE".data normalizedSql then "UPDATE"
  else if hasPrefixChars "DELETE".data normalizedSql then "DELETE"
  else if hasPrefixChars "CREATE".data normalizedSql then "CREATE"
  else if hasPrefixChars "ALTER".data normalizedSql then "ALTER"
  else if hasPrefixChars "DROP".data normalizedSql then "DROP"
  else if hasPrefixChars "TRUNCATE".data normalizedSql then "TRUNCATE"
  else if hasPrefixChars "GRANT".data normalizedSql then "GRANT"
  else if hasPrefixChars "REVOKE".data normalizedSql then "REVOKE"
  else "未知操作"

/-- Response envelope of `handleExecuteDML` (row counts and wall-clock timing
of the JSON payload are omitted; `isError` and the branch taken are kept). -/
inductive DMLResponse where
  | warningReadOnly
  | success (operation : String)
  | error
deriving DecidableEq, Repr

/-- Result of a call to `handleExecuteDML`: the response, the transaction
manager state after the call, the pool state (next fresh client id) and the
event trace of the call. -/
structure DMLOut where
  resp : DMLResponse
  tm : ManagerState
  pool : Nat
  events : List Event
deriving DecidableEq, Repr

/-- tool-handlers.ts `handleExecuteDML`: reject read-only statements; else
`pool.connect()`, `BEGIN`, run the statement, `COMMIT`; on any error attempt
`ROLLBACK` (its own failure is caught); `finally` release the client.  The
`transactionManager` and `timeoutMs` parameters are accepted but never used
by the function body, which is mirrored here by returning `tm` unchanged. -/
def handleExecuteDML (env : QueryEnv) (pool : Nat) (tm : ManagerState) (sql : String)
    (timeoutMs : Nat) : DMLOut :=
  if isReadOnlyQuery sql then
    ⟨DMLResponse.warningReadOnly, tm, pool, []⟩
  else
    let c := pool
    let pool1 := pool + 1
    if env c "BEGIN" then
      if env c sql then
        if env c "COMMIT" then
          ⟨DMLResponse.success (getOperationType sql), tm, pool1,
            [Event.acquire c, Event.query c "BEGIN", Event.query c sql,
              Event.query c "COMMIT"] ++ safelyReleaseClient (some c)⟩
        else
          ⟨DMLResponse.error, tm, pool1,
            [Event.acquire c, Event.query c "BEGIN", Event.query c sql,
              Event.query c "COMMIT", Event.query c "ROLLBACK"] ++ safelyReleaseClient (some c)⟩
      else
        ⟨DMLResponse.error, tm, pool1,
          [Event.acquire c, Event.query c "BEGIN", Event.query c sql,
            Event.query c "ROLLBACK"] ++ safelyReleaseClient (some c)⟩
    else
      ⟨DMLResponse.error, tm, pool1,
        [Event.acquire c, Event.query c "BEGIN",
          Event.query c "ROLLBACK"] ++ safelyReleaseClient (some c)⟩

/-- Outcome of the `execute_dml_ddl_dcl_tcl` tool registered in index.ts. -/
inductive ToolOutcome where
  | concurrencyLimit
  | handled (r : DMLResponse)
deriving DecidableEq, Repr

/-- Result of a call to the `execute_dml_ddl_dcl_tcl` tool. -/
structure ToolOut where
  outcome : ToolOutcome
  tm : ManagerState
  pool : Nat
  events : List Event
deriving DecidableEq, Repr

/-- index.ts tool `execute_dml_ddl_dcl_tcl`: admission check
`transactionManager.transactionCount >= config.maxConcurrentTransactions`
returns an error envelope before anything else; otherwise delegate to
`handleExecuteDML`. -/
def executeDmlDdlDclTcl (env : QueryEnv) (maxConcurrentTransactions : Nat)
    (transactionTimeoutMs : Nat) (pool : Nat) (tm : ManagerState) (sql : String) : ToolOut :=
  if maxConcurrentTransactions ≤ transactionCount tm then
    ⟨ToolOutcome.concurrencyLimit, tm, pool, []⟩
  else
    let out := handleExecuteDML env pool tm sql transactionTimeoutMs
    ⟨ToolOutcome.handled out.resp, out.tm, out.pool, out.events⟩

/-- Number of release attempts recorded for a given client in a trace. -/
def countRelease (c : Nat) : List Event → Nat
  | [] => 0
  | e :: rest => (if e = Event.release c then 1 else 0) + countRelease c rest

/-- Number of rollback initiations with a given initiator in a trace. -/
def countRollbackInitiated (initiator : String) : List Event → Nat
  | [] => 0
  | Event.rollbackInitiated _ i _ :: rest =>
      (if i = initiator then 1 else 0) + countRollbackInitiated initiator rest
  | _ :: rest => countRollbackInitiated initiator rest

/-! ### Lemmas about the map operations -/

theorem mapGet_delete_self (m : TxMap) (id : String) : mapGet (mapDelete m id) id = none := by
  induction m with
  | nil => rfl
  | cons p rest ih =>
    obtain ⟨k, v⟩ := p
    by_cases hk : k = id <;> simp [mapDelete, mapGet, hk, ih]

theorem mapGet_delete_ne (m : TxMap) {j id : String} (h : j ≠ id) :
    mapGet (mapDelete m id) j = mapGet m j := by
  induction m with
  | nil => rfl
  | cons p rest ih =>
    obtain ⟨k, v⟩ := p
    by_cases hk : k = id
    · simp [mapDelete, mapGet, hk, Ne.symm h, ih]
    · have hd : mapDelete ((k, v) :: rest) id = (k, v) :: mapDelete rest id := by
        simp [mapDelete, hk]
      rw [hd]
      by_cases hkj : k = j <;> simp [mapGet, hkj, ih]

theorem mapGet_update_self (m : TxMap) (id : String)
    (f : TrackedTransaction → TrackedTransaction) :
    mapGet (mapUpdate m id f) id = (mapGet m id).map f := by
  induction m with
  | nil => rfl
  | cons p rest ih =>
    obtain ⟨k, v⟩ := p
    by_cases hk : k = id <;> simp [mapUpdate, mapGet, hk, ih]

theorem mapGet_update_ne (m : TxMap) {j id : String}
    (f : TrackedTransaction → TrackedTransaction) (h : j ≠ id) :
    mapGet (mapUpdate m id f) j = mapGet m j := by
  induction m with
  | nil => rfl
  | cons p rest ih =>
    obtain ⟨k, v⟩ := p
    by_cases hk : k = id
    · have hkj : ¬k = j := fun e => h (e ▸ hk)
      have hu : mapUpdate ((k, v) :: rest) id f = (k, f v) :: rest := by
        simp [mapUpdate, hk]
      rw [hu]
      simp [mapGet, hkj]
    · have hu : mapUpdate ((k, v) :: rest) id f = (k, v) :: mapUpdate rest id f := by
        simp [mapUpdate, hk]
      rw [hu]
      by_cases hkj : k = j <;> simp [mapGet, hkj, ih]

theorem mapGet_set_self (m : TxMap) (id : String) (v : TrackedTransaction) :
    mapGet (mapSet m id v) id = some v := by
  induction m with
  | nil => simp [mapSet, mapGet]
  | cons p rest ih =>
    obtain ⟨k, w⟩ := p
    by_cases hk : k = id <;> simp [mapSet, mapGet, hk, ih]

theorem mapDelete_update (m : TxMap) (id : String)
    (f : TrackedTransaction → TrackedTransaction) :
    mapDelete (mapUpdate m id f) id = mapDelete m id := by
  induction m with
  | nil => rfl
  | cons p rest ih =>
    obtain ⟨k, v⟩ := p
    by_cases hk : k = id <;> simp [mapUpdate, mapDelete, hk, ih]

theorem mapDelete_of_get_none (m : TxMap) (id : String) (h : mapGet m id = none) :
    mapDelete m id = m := by
  induction m with
  | nil => rfl
  | cons p rest ih =>
    obtain ⟨k, v⟩ := p
    by_cases hk : k = id
    · simp [mapGet, hk] at h
    · simp [mapGet, hk] at h
      simp [mapDelete, hk, ih h]

theorem mapGet_some_mem_keys {m : TxMap} {id : String} {tx : TrackedTransaction}
    (h : mapGet m id = some tx) : id ∈ m.map Prod.fst := by
  induction m with
  | nil => simp [mapGet] at h
  | cons p rest ih =>
    obtain ⟨k, v⟩ := p
    by_cases hk : k = id
    · simp [hk]
    · simp [mapGet, hk] at h
      simp [ih h]

theorem mapGet_none_of_not_mem {m : TxMap} {id : String}
    (h : id ∉ m.map Prod.fst) : mapGet m id = none := by
  induction m with
  | nil => rfl
  | cons p rest ih =>
    obtain ⟨k, v⟩ := p
    have hk : ¬k = id := by
      intro e
      exact h (by simp [e])
    have hrest : id ∉ rest.map Prod.fst := by
      intro hm
      exact h (by simp [hm])
    simp [mapGet, hk, ih hrest]

/-! ### Lemmas about removal and the terminal operations -/

theorem removeTransaction_transactions (st : ManagerState) (id : String) :
    (removeTransaction st id).1.transactions = mapDelete st.transactions id := by
  unfold removeTransaction
  cases hg : mapGet st.transactions id with
  | none => rfl
  | some tx =>
    by_cases hr : tx.released <;> simp [hr, mapDelete_update]

theorem removeTransaction_monitor (st : ManagerState) (id : String) :
    (removeTransaction st id).1.monitorActive = st.monitorActive := by
  unfold removeTransaction
  cases hg : mapGet st.transactions id with
  | none => rfl
  | some tx => by_cases hr : tx.released <;> simp [hr]

theorem rollbackAndRemove_ok (env : QueryEnv) (st : ManagerState) (id initiator reason : String) :
    (rollbackAndRemove env st id initiator reason).1 = Except.ok () := by
  unfold rollbackAndRemove
  cases hg : mapGet st.transactions id <;> rfl

theorem rollbackAndRemove_transactions (env : QueryEnv) (st : ManagerState)
    (id initiator reason : String) :
    (rollbackAndRemove env st id initiator reason).2.1.transactions
      = mapDelete st.transactions id := by
  unfold rollbackAndRemove
  cases hg : mapGet st.transactions id with
  | none => simp [mapDelete_of_get_none _ _ hg]
  | some tx => simp [removeTransaction_transactions, mapDelete_update]

theorem rollbackAndRemove_monitor (env : QueryEnv) (st : ManagerState)
    (id initiator reason : String) :
    (rollbackAndRemove env st id initiator reason).2.1.monitorActive = st.monitorActive := by
  unfold rollbackAndRemove
  cases hg : mapGet st.transactions id with
  | none => rfl
  | some tx => simp [removeTransaction_monitor]

theorem commitAndRemove_transactions (env : QueryEnv) (st : ManagerState) (id : String) :
    (commitAndRemove env st id).2.1.transactions = mapDelete st.transactions id := by
  unfold commitAndRemove
  cases hg : mapGet st.transactions id with
  | none => simp [mapDelete_of_get_none _ _ hg]
  | some tx =>
    by_cases he : env tx.client "COMMIT" <;>
      simp [he, removeTransaction_transactions, mapDelete_update]

theorem countRelease_append (c : Nat) (l1 l2 : List Event) :
    countRelease c (l1 ++ l2) = countRelease c l1 + countRelease c l2 := by
  induction l1 with
  | nil => simp [countRelease]
  | cons e rest ih => simp [countRelease, ih, Nat.add_assoc]

theorem countRollbackInitiated_append (i : String) (l1 l2 : List Event) :
    countRollbackInitiated i (l1 ++ l2)
      = countRollbackInitiated i l1 + countRollbackInitiated i l2 := by
  induction l1 with
  | nil => simp [countRollbackInitiated]
  | cons e rest ih => cases e <;> simp [countRollbackInitiated, ih, Nat.add_assoc]

/-- Concrete registry state with one active staged transaction, used by
witnesses. -/
def exampleState1 : ManagerState :=
  ⟨[("tx1", ⟨"tx1", 3, 0, "DELETE FROM t", TxState.active, false⟩)], true⟩

/-- Concrete registry state with three active staged transactions, used by
witnesses. -/
def exampleState3 : ManagerState :=
  ⟨[("tx1", ⟨"tx1", 3, 0, "DELETE FROM t", TxState.active, false⟩),
    ("tx2", ⟨"tx2", 4, 5, "UPDATE t SET x=1", TxState.active, false⟩),
    ("tx3", ⟨"tx3", 5, 9, "insert into t values (1)", TxState.active, false⟩)], true⟩

/-! ### Claim theorems -/

/-- Classification predicate written from the spec wording, for comparison
with the source function `isReadOnlyQuery`: a statement is read-only exactly
when, after trimming whitespace and case-folding, it begins with select,
with, explain, or show. -/
def specReadOnlyClassification (sql : String) : Bool :=
  let folded := lowerChars (trimChars sql.data)
  hasPrefixChars "select".data folded ||
  hasPrefixChars "with".data folded ||
  hasPrefixChars "explain".data folded ||
  hasPrefixChars "show".data folded

/-- C10: for every input string the classification function returns read-only
exactly when the trimmed, case-folded string begins with select, with,
explain, or show; the example statements of the spec classify as stated. -/
theorem isReadOnlyQuery_matches_spec :
    (∀ sql : String, isReadOnlyQuery sql = specReadOnlyClassification sql) ∧
    isReadOnlyQuery "select * from t" = true ∧
    isReadOnlyQuery "  WITH x AS (...) SELECT 1" = true ∧
    isReadOnlyQuery "EXPLAIN SELECT 1" = true ∧
    isReadOnlyQuery "SHOW search_path" = true ∧
    isReadOnlyQuery "insert into t values (1)" = false ∧
    isReadOnlyQuery "UPDATE t SET x=1" = false ∧
    isReadOnlyQuery "DELETE FROM t" = false ∧
    isReadOnlyQuery "CREATE TABLE t(...)" = false := by
  refine ⟨fun sql => rfl, ?_, ?_, ?_, ?_, ?_, ?_, ?_, ?_⟩ <;> decide

/-- C9 counterexample: invoking `addTransaction` a second time with an id
already present does not fail — it silently overwrites the existing entry
(the registry still holds one entry, now carrying the second client and
statement). -/
theorem addTransaction_overwrite_counterexample :
    transactionCount
        (addTransaction (addTransaction ⟨[], true⟩ "tx1" 1 "UPDATE t SET x=1" 100)
          "tx1" 2 "DELETE FROM t" 200) = 1 ∧
    mapGet
        (addTransaction (addTransaction ⟨[], true⟩ "tx1" 1 "UPDATE t SET x=1" 100)
          "tx1" 2 "DELETE FROM t" 200).transactions "tx1"
      = some ⟨"tx1", 2, 200, "DELETE FROM t", TxState.active, false⟩ := by
  decide

/-- C9 (amended): `addTransaction` stores an entry with state active,
released false and startTime now under the given id — also when the id is
already present, in which case the existing entry is silently overwritten
rather than the call failing. -/
theorem addTransaction_inserts_fresh_entry (st : ManagerState) (id : String) (client : Nat)
    (sql : String) (now : Nat) :
    mapGet (addTransaction st id client sql now).transactions id
      = some ⟨id, client, now, sql, TxState.active, false⟩ ∧
    (addTransaction st id client sql now).monitorActive = st.monitorActive :=
  ⟨mapGet_set_self _ _ _, rfl⟩

/-- C1: contrary to the staged write protocol, the write handler run on an
accepted write statement that executes successfully issues COMMIT itself,
adds nothing to the transaction registry, and releases the connection —
no transaction id is staged for a later commit/rollback call. -/
theorem handleExecuteDML_commits_immediately :
    (handleExecuteDML (fun _ _ => true) 0 ⟨[], true⟩ "insert into t values (1)" 15000).resp
        = DMLResponse.success "INSERT" ∧
    Event.query 0 "COMMIT"
        ∈ (handleExecuteDML (fun _ _ => true) 0 ⟨[], true⟩ "insert into t values (1)" 15000).events ∧
    Event.release 0
        ∈ (handleExecuteDML (fun _ _ => true) 0 ⟨[], true⟩ "insert into t values (1)" 15000).events ∧
    (handleExecuteDML (fun _ _ => true) 0 ⟨[], true⟩ "insert into t values (1)" 15000).tm
        = ⟨[], true⟩ ∧
    transactionCount
        (handleExecuteDML (fun _ _ => true) 0 ⟨[], true⟩ "insert into t values (1)" 15000).tm
        = 0 := by
  decide

/-- C6: whenever the registry count has reached `maxConcurrentTransactions`,
the `execute_dml_ddl_dcl_tcl` tool rejects the request with the concurrency
limit error, with no event (in particular no connection acquired) and the
pool and registry unchanged. -/
theorem executeDml_rejects_at_capacity (env : QueryEnv)
    (maxConcurrentTransactions transactionTimeoutMs pool : Nat) (tm : ManagerState)
    (sql : String) (h : maxConcurrentTransactions ≤ transactionCount tm) :
    executeDmlDdlDclTcl env maxConcurrentTransactions transactionTimeoutMs pool tm sql
      = ⟨ToolOutcome.concurrencyLimit, tm, pool, []⟩ := by
  unfold executeDmlDdlDclTcl
  simp [h]

/-- C6 witness: with a ceiling of one transaction and one staged transaction
present, a write request is rejected without acquiring a connection. -/
theorem executeDml_rejects_at_capacity_witness :
    executeDmlDdlDclTcl (fun _ _ => true) 1 15000 7 exampleState1 "UPDATE t SET x=1"
      = ⟨ToolOutcome.concurrencyLimit, exampleState1, 7, []⟩ :=
  executeDml_rejects_at_capacity (fun _ _ => true) 1 15000 7 exampleState1
    "UPDATE t SET x=1" (by decide)

/-- C5: `removeTransaction` is idempotent: an absent id is a no-op, a present
unreleased entry is released exactly once and deleted, a present released
entry is deleted without a second release, and a repeated call after removal
performs nothing. -/
theorem removeTransaction_idempotent (st : ManagerState) (id : String) :
    (mapGet st.transactions id = none → removeTransaction st id = (st, [])) ∧
    (∀ tx, mapGet st.transactions id = some tx →
      mapGet (removeTransaction st id).1.transactions id = none ∧
      (tx.released = false → (removeTransaction st id).2 = [Event.release tx.client]) ∧
      (tx.released = true → (removeTransaction st id).2 = [])) ∧
    removeTransaction (removeTransaction st id).1 id = ((removeTransaction st id).1, []) := by
  have habsent : ∀ st' : ManagerState, mapGet st'.transactions id = none →
      removeTransaction st' id = (st', []) := by
    intro st' h
    simp [removeTransaction, h, mapDelete_of_get_none _ _ h]
  refine ⟨habsent st, ?_, ?_⟩
  · intro tx hg
    refine ⟨?_, ?_, ?_⟩
    · rw [removeTransaction_transactions]
      exact mapGet_delete_self _ _
    · intro hr
      simp [removeTransaction, hg, hr, safelyReleaseClient]
    · intro hr
      simp [removeTransaction, hg, hr]
  · exact habsent _ (by rw [removeTransaction_transactions]; exact mapGet_delete_self _ _)

/-- C5 witness: on a state with one unreleased transaction, removal releases
its client once, deletes the entry, and a second removal does nothing. -/
theorem removeTransaction_idempotent_witness :
    (removeTransaction exampleState1 "tx1").2 = [Event.release 3] ∧
    mapGet (removeTransaction exampleState1 "tx1").1.transactions "tx1" = none ∧
    removeTransaction (removeTransaction exampleState1 "tx1").1 "tx1"
      = ((removeTransaction exampleState1 "tx1").1, []) := by
  have h := removeTransaction_idempotent exampleState1 "tx1"
  have hp := h.2.1 ⟨"tx1", 3, 0, "DELETE FROM t", TxState.active, false⟩ (by decide)
  exact ⟨hp.2.1 rfl, hp.1, h.2.2⟩

/-- C3: `commitAndRemove` fails with the not-found error on an absent id with
no side effect; on a present (unreleased) entry it issues COMMIT, always
removes the entry afterwards so the id is gone and the client released
exactly once, returns success when COMMIT succeeds, and rethrows the commit
error after the cleanup when COMMIT throws. -/
theorem commitAndRemove_spec (env : QueryEnv) (st : ManagerState) (id : String) :
    (mapGet st.transactions id = none →
      commitAndRemove env st id = (Except.error (TxError.notFound id), st, [])) ∧
    (∀ tx, mapGet st.transactions id = some tx → tx.released = false →
      hasTransaction (commitAndRemove env st id).2.1 id = false ∧
      (commitAndRemove env st id).2.2
        = [Event.query tx.client "COMMIT", Event.release tx.client] ∧
      countRelease tx.client (commitAndRemove env st id).2.2 = 1 ∧
      (env tx.client "COMMIT" = true → (commitAndRemove env st id).1 = Except.ok ()) ∧
      (env tx.client "COMMIT" = false →
        (commitAndRemove env st id).1 = Except.error (TxError.db tx.client "COMMIT"))) := by
  constructor
  · intro h
    simp [commitAndRemove, h]
  · intro tx hg hr
    have hg1 : mapGet (mapUpdate st.transactions id
        (fun t => { t with state := TxState.terminating })) id
        = some { tx with state := TxState.terminating } := by
      rw [mapGet_update_self, hg]
      rfl
    have hev : (commitAndRemove env st id).2.2
        = [Event.query tx.client "COMMIT", Event.release tx.client] := by
      by_cases he : env tx.client "COMMIT" <;>
        simp [commitAndRemove, hg, he, removeTransaction, hg1, hr, safelyReleaseClient]
    refine ⟨?_, hev, ?_, ?_, ?_⟩
    · unfold hasTransaction
      rw [commitAndRemove_transactions]
      simp [mapGet_delete_self]
    · rw [hev]
      simp [countRelease]
    · intro he
      simp [commitAndRemove, hg, he]
    · intro he
      simp [commitAndRemove, hg, he]

/-- C3 witness: on a state holding transaction tx1 owned by client 3, with an
environment in which COMMIT throws, the commit error is rethrown but the
entry is removed and the client released exactly once; on a fresh state the
absent id yields the not-found error. -/
theorem commitAndRemove_spec_witness :
    hasTransaction (commitAndRemove (fun _ _ => false) exampleState1 "tx1").2.1 "tx1" = false ∧
    countRelease 3 (commitAndRemove (fun _ _ => false) exampleState1 "tx1").2.2 = 1 ∧
    (commitAndRemove (fun _ _ => false) exampleState1 "tx1").1
      = Except.error (TxError.db 3 "COMMIT") ∧
    commitAndRemove (fun _ _ => false) ⟨[], true⟩ "tx9"
      = (Except.error (TxError.notFound "tx9"), ⟨[], true⟩, []) := by
  have h := commitAndRemove_spec (fun _ _ => false) exampleState1 "tx1"
  have hp := h.2 ⟨"tx1", 3, 0, "DELETE FROM t", TxState.active, false⟩ (by decide) rfl
  have h0 := commitAndRemove_spec (fun _ _ => false) ⟨[], true⟩ "tx9"
  exact ⟨hp.1, hp.2.2.1, hp.2.2.2.2 rfl, h0.1 rfl⟩

/-- C4: `rollbackAndRemove` never propagates an error; an absent id returns
silently with no side effect; a present entry gets ROLLBACK issued with the
given initiator and reason recorded, and the entry is removed (with exactly
one client release for an unreleased entry) whether or not ROLLBACK throws. -/
theorem rollbackAndRemove_spec (env : QueryEnv) (st : ManagerState)
    (id initiator reason : String) :
    (rollbackAndRemove env st id initiator reason).1 = Except.ok () ∧
    (mapGet st.transactions id = none →
      rollbackAndRemove env st id initiator reason = (Except.ok (), st, [])) ∧
    (∀ tx, mapGet st.transactions id = some tx →
      hasTransaction (rollbackAndRemove env st id initiator reason).2.1 id = false ∧
      Event.query tx.client "ROLLBACK" ∈ (rollbackAndRemove env st id initiator reason).2.2 ∧
      Event.rollbackInitiated id initiator reason
        ∈ (rollbackAndRemove env st id initiator reason).2.2 ∧
      (tx.released = false →
        countRelease tx.client (rollbackAndRemove env st id initiator reason).2.2 = 1)) := by
  refine ⟨rollbackAndRemove_ok env st id initiator reason, ?_, ?_⟩
  · intro h
    simp [rollbackAndRemove, h]
  · intro tx hg
    have hg1 : mapGet (mapUpdate st.transactions id
        (fun t => { t with state := TxState.terminating })) id
        = some { tx with state := TxState.terminating } := by
      rw [mapGet_update_self, hg]
      rfl
    refine ⟨?_, ?_, ?_, ?_⟩
    · unfold hasTransaction
      rw [rollbackAndRemove_transactions]
      simp [mapGet_delete_self]
    · by_cases he : env tx.client "ROLLBACK" <;> simp [rollbackAndRemove, hg, he]
    · by_cases he : env tx.client "ROLLBACK" <;> simp [rollbackAndRemove, hg, he]
    · intro hr
      by_cases he : env tx.client "ROLLBACK" <;>
        simp [rollbackAndRemove, hg, he, removeTransaction, hg1, hr, safelyReleaseClient,
          countRelease_append, countRelease]

/-- C4 witness: with an environment in which ROLLBACK throws, rolling back
tx1 still returns without error, removes the entry, and releases client 3
exactly once; rolling back an absent id on the empty registry is a silent
no-op. -/
theorem rollbackAndRemove_spec_witness :
    (rollbackAndRemove (fun _ _ => false) exampleState1 "tx1" "用户请求" "用户明确请求回滚").1
      = Except.ok () ∧
    hasTransaction
        (rollbackAndRemove (fun _ _ => false) exampleState1 "tx1" "用户请求"
          "用户明确请求回滚").2.1 "tx1" = false ∧
    countRelease 3
        (rollbackAndRemove (fun _ _ => false) exampleState1 "tx1" "用户请求"
          "用户明确请求回滚").2.2 = 1 ∧
    rollbackAndRemove (fun _ _ => false) ⟨[], true⟩ "tx9" "自动" "事务已超时"
      = (Except.ok (), ⟨[], true⟩, []) := by
  have h := rollbackAndRemove_spec (fun _ _ => false) exampleState1 "tx1" "用户请求"
    "用户明确请求回滚"
  have hp := h.2.2 ⟨"tx1", 3, 0, "DELETE FROM t", TxState.active, false⟩ (by decide)
  have h0 := rollbackAndRemove_spec (fun _ _ => false) ⟨[], true⟩ "tx9" "自动" "事务已超时"
  exact ⟨h.1, hp.1, hp.2.2.2 rfl, h0.2.1 rfl⟩

/-- C2: every call to the write handler leaves the transaction registry
unchanged; when a statement is accepted (not read-only) the acquired
connection is released exactly once, release is the final cleanup action,
COMMIT is issued whenever the statement itself executed, and a ROLLBACK is
attempted whenever BEGIN, the statement, or COMMIT failed. -/
theorem handleExecuteDML_frame (env : QueryEnv) (pool : Nat) (tm : ManagerState)
    (sql : String) (timeoutMs : Nat) :
    (handleExecuteDML env pool tm sql timeoutMs).tm = tm ∧
    (isReadOnlyQuery sql = true →
      (handleExecuteDML env pool tm sql timeoutMs).events = []) ∧
    (isReadOnlyQuery sql = false →
      countRelease pool (handleExecuteDML env pool tm sql timeoutMs).events = 1 ∧
      (handleExecuteDML env pool tm sql timeoutMs).events.getLast?
        = some (Event.release pool) ∧
      (env pool "BEGIN" = true → env pool sql = true →
        Event.query pool "COMMIT" ∈ (handleExecuteDML env pool tm sql timeoutMs).events) ∧
      ((env pool "BEGIN" = false ∨ env pool sql = false ∨ env pool "COMMIT" = false) →
        Event.query pool "ROLLBACK" ∈ (handleExecuteDML env pool tm sql timeoutMs).events)) := by
  by_cases hro : isReadOnlyQuery sql
  · refine ⟨?_, ?_, ?_⟩
    · simp [handleExecuteDML, hro]
    · intro _
      simp [handleExecuteDML, hro]
    · intro hfalse
      rw [hro] at hfalse
      exact absurd hfalse (by simp)
  · have hro' : isReadOnlyQuery sql = false := by simp [hro]
    refine ⟨?_, ?_, ?_⟩
    · cases hb : env pool "BEGIN" <;> cases hs : env pool sql <;> cases hc : env pool "COMMIT" <;>
        simp [handleExecuteDML, hro', hb, hs, hc]
    · intro h
      rw [h] at hro'
      cases hro'
    · intro _
      refine ⟨?_, ?_, ?_, ?_⟩
      · cases hb : env pool "BEGIN" <;> cases hs : env pool sql <;> cases hc : env pool "COMMIT" <;>
          simp [handleExecuteDML, hro', hb, hs, hc, safelyReleaseClient, countRelease]
      · cases hb : env pool "BEGIN" <;> cases hs : env pool sql <;> cases hc : env pool "COMMIT" <;>
          simp [handleExecuteDML, hro', hb, hs, hc, safelyReleaseClient, List.getLast?]
      · intro h1 h2
        cases hc : env pool "COMMIT" <;>
          simp [handleExecuteDML, hro', h1, h2, hc, safelyReleaseClient]
      · intro hfail
        cases hb : env pool "BEGIN" <;> cases hs : env pool sql <;> cases hc : env pool "COMMIT" <;>
          simp [hb, hs, hc] at hfail <;>
          simp [handleExecuteDML, hro', hb, hs, hc, safelyReleaseClient]

/-- C2 witness: for a write statement with all queries succeeding, the
registry is untouched, the client is released exactly once as the last
action, and COMMIT is issued; with a failing statement a ROLLBACK is
attempted instead. -/
theorem handleExecuteDML_frame_witness :
    (handleExecuteDML (fun _ _ => true) 0 exampleState1 "DELETE FROM t" 15000).tm
      = exampleState1 ∧
    countRelease 0 (handleExecuteDML (fun _ _ => true) 0 exampleState1
      "DELETE FROM t" 15000).events = 1 ∧
    (handleExecuteDML (fun _ _ => true) 0 exampleState1 "DELETE FROM t" 15000).events.getLast?
      = some (Event.release 0) ∧
    Event.query 0 "COMMIT"
      ∈ (handleExecuteDML (fun _ _ => true) 0 exampleState1 "DELETE FROM t" 15000).events ∧
    Event.query 0 "ROLLBACK"
      ∈ (handleExecuteDML (fun _ _ => false) 0 exampleState1 "DELETE FROM t" 15000).events := by
  have h := handleExecuteDML_frame (fun _ _ => true) 0 exampleState1 "DELETE FROM t" 15000
  have hp := h.2.2 (by decide)
  have h2 := handleExecuteDML_frame (fun _ _ => false) 0 exampleState1 "DELETE FROM t" 15000
  have hp2 := h2.2.2 (by decide)
  exact ⟨h.1, hp.1, hp.2.1, hp.2.2.1 rfl rfl, hp2.2.2.2 (Or.inl rfl)⟩

/-! ### The timeout sweep and the shutdown sweep -/

theorem tickStep_get_none (env : QueryEnv) (now timeoutMs : Nat)
    (acc : ManagerState × List Event) (id : String) {j : String}
    (h : mapGet acc.1.transactions j = none) :
    mapGet (tickStep env now timeoutMs acc id).1.transactions j = none := by
  cases hg : mapGet acc.1.transactions id with
  | none => simpa [tickStep, hg] using h
  | some tx =>
    by_cases ht : timeoutMs < now - tx.startTime
    · simp [tickStep, hg, ht, rollbackAndRemove_transactions]
      by_cases hj : j = id
      · subst hj
        exact mapGet_delete_self _ _
      · rw [mapGet_delete_ne _ hj]
        exact h
    · simpa [tickStep, hg, ht] using h

theorem tickStep_get_ne (env : QueryEnv) (now timeoutMs : Nat)
    (acc : ManagerState × List Event) {id j : String} (hj : j ≠ id) :
    mapGet (tickStep env now timeoutMs acc id).1.transactions j
      = mapGet acc.1.transactions j := by
  cases hg : mapGet acc.1.transactions id with
  | none => simp [tickStep, hg]
  | some tx =>
    by_cases ht : timeoutMs < now - tx.startTime
    · simp [tickStep, hg, ht, rollbackAndRemove_transactions]
      exact mapGet_delete_ne _ hj
    · simp [tickStep, hg, ht]

theorem tickStep_events_mono (env : QueryEnv) (now timeoutMs : Nat)
    (acc : ManagerState × List Event) (id : String) {e : Event} (h : e ∈ acc.2) :
    e ∈ (tickStep env now timeoutMs acc id).2 := by
  cases hg : mapGet acc.1.transactions id with
  | none => simpa [tickStep, hg] using h
  | some tx =>
    by_cases ht : timeoutMs < now - tx.startTime
    · simp [tickStep, hg, ht]
      exact Or.inl h
    · simpa [tickStep, hg, ht] using h

theorem foldl_tick_get_none (env : QueryEnv) (now timeoutMs : Nat) (ids : List String) :
    ∀ (acc : ManagerState × List Event) (j : String), mapGet acc.1.transactions j = none →
      mapGet ((ids.foldl (tickStep env now timeoutMs) acc).1.transactions) j = none := by
  induction ids with
  | nil => intro acc j h; exact h
  | cons id0 rest ih =>
    intro acc j h
    exact ih _ _ (tickStep_get_none env now timeoutMs acc id0 h)

theorem foldl_tick_events_mono (env : QueryEnv) (now timeoutMs : Nat) (ids : List String) :
    ∀ (acc : ManagerState × List Event) (e : Event), e ∈ acc.2 →
      e ∈ (ids.foldl (tickStep env now timeoutMs) acc).2 := by
  induction ids with
  | nil => intro acc e h; exact h
  | cons id0 rest ih =>
    intro acc e h
    exact ih _ _ (tickStep_events_mono env now timeoutMs acc id0 h)

theorem foldl_tick_removes (env : QueryEnv) (now timeoutMs : Nat) (ids : List String) :
    ∀ (acc : ManagerState × List Event) (id : String) (tx : TrackedTransaction),
      id ∈ ids → mapGet acc.1.transactions id = some tx →
      timeoutMs < now - tx.startTime →
      mapGet ((ids.foldl (tickStep env now timeoutMs) acc).1.transactions) id = none ∧
      Event.query tx.client "ROLLBACK" ∈ (ids.foldl (tickStep env now timeoutMs) acc).2 ∧
      Event.rollbackInitiated id "自动" "事务已超时"
        ∈ (ids.foldl (tickStep env now timeoutMs) acc).2 := by
  induction ids with
  | nil =>
    intro acc id tx hmem
    simp at hmem
  | cons id0 rest ih =>
    intro acc id tx hmem hget ht
    by_cases hid : id = id0
    · subst hid
      have hstate : mapGet (tickStep env now timeoutMs acc id).1.transactions id = none := by
        simp [tickStep, hget, ht, rollbackAndRemove_transactions]
        exact mapGet_delete_self _ _
      have hq : Event.query tx.client "ROLLBACK" ∈ (tickStep env now timeoutMs acc id).2 := by
        by_cases he : env tx.client "ROLLBACK" <;>
          simp [tickStep, hget, ht, rollbackAndRemove, he]
      have hi : Event.rollbackInitiated id "自动" "事务已超时"
          ∈ (tickStep env now timeoutMs acc id).2 := by
        by_cases he : env tx.client "ROLLBACK" <;>
          simp [tickStep, hget, ht, rollbackAndRemove, he]
      refine ⟨foldl_tick_get_none env now timeoutMs rest _ _ hstate,
        foldl_tick_events_mono env now timeoutMs rest _ _ hq,
        foldl_tick_events_mono env now timeoutMs rest _ _ hi⟩
    · have hmem' : id ∈ rest := by
        rcases List.mem_cons.mp hmem with h | h
        · exact absurd h hid
        · exact h
      have hget' : mapGet (tickStep env now timeoutMs acc id0).1.transactions id = some tx := by
        rw [tickStep_get_ne env now timeoutMs acc hid]
        exact hget
      exact ih _ _ _ hmem' hget' ht

/-- C7: any registered transaction whose age `now - startTime` exceeds the
timeout is, on a monitor tick, rolled back and removed without caller
action: afterwards the id is gone from the registry, a ROLLBACK was issued
on its client, and the rollback was initiated with the automatic initiator
and timed-out reason (the code strings "自动"/"事务已超时"). -/
theorem checkTransactionTimeouts_sweeps (env : QueryEnv) (now timeoutMs : Nat)
    (st : ManagerState) (id : String) (tx : TrackedTransaction)
    (hget : mapGet st.transactions id = some tx)
    (ht : timeoutMs < now - tx.startTime) :
    hasTransaction (checkTransactionTimeouts env now timeoutMs st).1 id = false ∧
    Event.query tx.client "ROLLBACK" ∈ (checkTransactionTimeouts env now timeoutMs st).2 ∧
    Event.rollbackInitiated id "自动" "事务已超时"
      ∈ (checkTransactionTimeouts env now timeoutMs st).2 := by
  have h := foldl_tick_removes env now timeoutMs (st.transactions.map Prod.fst) (st, []) id tx
    (mapGet_some_mem_keys hget) hget ht
  refine ⟨?_, h.2.1, h.2.2⟩
  unfold hasTransaction checkTransactionTimeouts
  rw [h.1]
  rfl

/-- C7 witness: a transaction staged at time 0 with a 15000 ms timeout is
swept at a tick happening at time 20000: it is removed and rolled back
automatically. -/
theorem checkTransactionTimeouts_sweeps_witness :
    hasTransaction (checkTransactionTimeouts (fun _ _ => true) 20000 15000 exampleState1).1
      "tx1" = false ∧
    Event.query 3 "ROLLBACK"
      ∈ (checkTransactionTimeouts (fun _ _ => true) 20000 15000 exampleState1).2 ∧
    Event.rollbackInitiated "tx1" "自动" "事务已超时"
      ∈ (checkTransactionTimeouts (fun _ _ => true) 20000 15000 exampleState1).2 :=
  checkTransactionTimeouts_sweeps (fun _ _ => true) 20000 15000 exampleState1 "tx1"
    ⟨"tx1", 3, 0, "DELETE FROM t", TxState.active, false⟩ (by decide) (by decide)

theorem countRollbackInitiated_removeTransaction (i : String) (st : ManagerState)
    (id : String) :
    countRollbackInitiated i (removeTransaction st id).2 = 0 := by
  unfold removeTransaction
  cases hg : mapGet st.transactions id with
  | none => rfl
  | some tx =>
    by_cases hr : tx.released <;> simp [hr, safelyReleaseClient, countRollbackInitiated]

theorem countRollbackInitiated_rollbackAndRemove (env : QueryEnv) (st : ManagerState)
    (id i r : String) (tx : TrackedTransaction) (hg : mapGet st.transactions id = some tx) :
    countRollbackInitiated i (rollbackAndRemove env st id i r).2.2 = 1 := by
  by_cases he : env tx.client "ROLLBACK" <;>
    simp [rollbackAndRemove, hg, he, countRollbackInitiated_append, countRollbackInitiated,
      countRollbackInitiated_removeTransaction]

theorem destroy_foldl (env : QueryEnv) (entries : TxMap) :
    ∀ (st : ManagerState) (accEv : List Event),
      st.transactions = entries → (entries.map Prod.fst).Nodup →
      ((entries.map Prod.fst).foldl (destroyStep env) (st, accEv)).1.transactions = [] ∧
      ((entries.map Prod.fst).foldl (destroyStep env) (st, accEv)).1.monitorActive
        = st.monitorActive ∧
      countRollbackInitiated "系统关闭"
          (((entries.map Prod.fst).foldl (destroyStep env) (st, accEv)).2)
        = countRollbackInitiated "系统关闭" accEv + entries.length := by
  induction entries with
  | nil =>
    intro st accEv hst hnd
    exact ⟨hst, rfl, rfl⟩
  | cons p rest ih =>
    obtain ⟨id0, tx0⟩ := p
    intro st accEv hst hnd
    have hnd0 : id0 ∉ rest.map Prod.fst := by
      rw [List.map_cons, List.nodup_cons] at hnd
      exact hnd.1
    have hndrest : (rest.map Prod.fst).Nodup := by
      rw [List.map_cons, List.nodup_cons] at hnd
      exact hnd.2
    have hget : mapGet st.transactions id0 = some tx0 := by
      rw [hst]
      simp [mapGet]
    have hdel : mapDelete st.transactions id0 = rest := by
      rw [hst]
      simp [mapDelete]
      exact mapDelete_of_get_none _ _ (mapGet_none_of_not_mem hnd0)
    have hstep1 : (destroyStep env (st, accEv) id0).1.transactions = rest := by
      unfold destroyStep
      rw [rollbackAndRemove_transactions]
      exact hdel
    have hstep2 : (destroyStep env (st, accEv) id0).1.monitorActive = st.monitorActive := by
      unfold destroyStep
      exact rollbackAndRemove_monitor _ _ _ _ _
    have hstep3 : countRollbackInitiated "系统关闭" (destroyStep env (st, accEv) id0).2
        = countRollbackInitiated "系统关闭" accEv + 1 := by
      unfold destroyStep
      rw [countRollbackInitiated_append]
      rw [countRollbackInitiated_rollbackAndRemove env st id0 _ _ tx0 hget]
    have hfold := ih (destroyStep env (st, accEv) id0).1 (destroyStep env (st, accEv) id0).2
      hstep1 hndrest
    rw [List.map_cons, List.foldl_cons]
    refine ⟨hfold.1, ?_, ?_⟩
    · rw [hfold.2.1, hstep2]
    · rw [hfold.2.2, hstep3, List.length_cons]
      omega

/-- C8: `destroy` stops the Timeout Monitor and rolls back every registered
transaction with the shutdown initiator (the code string "系统关闭"): with n
active transactions it records exactly n rollback initiations and leaves the
registry empty, for every environment — including ones where some rollbacks
throw, since those failures are swallowed and do not abort the sweep. -/
theorem destroy_spec (env : QueryEnv) (st : ManagerState)
    (hnd : (st.transactions.map Prod.fst).Nodup) :
    (destroy env st).1.transactions = [] ∧
    (destroy env st).1.monitorActive = false ∧
    countRollbackInitiated "系统关闭" (destroy env st).2 = transactionCount st := by
  have h := destroy_foldl env st.transactions { st with monitorActive := false } [] rfl hnd
  unfold destroy
  exact ⟨h.1, h.2.1, by simpa [transactionCount, countRollbackInitiated] using h.2.2⟩

/-- C8 witness: destroying a manager with three active transactions, in an
environment where the rollback of client 4 throws, still produces three
rollback initiations, stops the monitor, and empties the registry. -/
theorem destroy_spec_witness :
    (destroy (fun c _ => !(c == 4)) exampleState3).1.transactions = [] ∧
    (destroy (fun c _ => !(c == 4)) exampleState3).1.monitorActive = false ∧
    countRollbackInitiated "系统关闭" (destroy (fun c _ => !(c == 4)) exampleState3).2 = 3 :=
  destroy_spec (fun c _ => !(c == 4)) exampleState3 (by decide)

end PgMcp
